import Mathlib

/-!
Verification of the convolution block of sockeye (src/sockeye/convolution.py)
and of the layer-normalization contract exercised by src/test/unit/test_layers.py.

Tensors of the numerical substrate (MXNet) are embedded as shape-carrying
structures over the rationals.  Elementwise activation functions of the
substrate (sigmoid, relu, ...) are passed in as a function
actF : String → ℚ → ℚ, since their numerical definitions live outside the
repository; every structural claim holds for an arbitrary such function.
-/

namespace Sockeye

/-- A three-dimensional tensor: shape (n0, n1, n2) and a total valuation.
Indices outside the shape are given by the same formulas and are junk. -/
structure Tensor3 where
  n0 : ℕ
  n1 : ℕ
  n2 : ℕ
  val : ℕ → ℕ → ℕ → ℚ

theorem Tensor3.eqOf (x y : Tensor3) (h0 : x.n0 = y.n0) (h1 : x.n1 = y.n1)
    (h2 : x.n2 = y.n2) (hv : ∀ i j k, x.val i j k = y.val i j k) : x = y := by
  cases x
  cases y
  simp only at h0 h1 h2
  subst h0
  subst h1
  subst h2
  simp only [Tensor3.mk.injEq, true_and]
  funext i j k
  exact hv i j k

/-- mx.sym.swapaxes(data, dim1=0, dim2=1). -/
def swapaxes01 (x : Tensor3) : Tensor3 :=
  ⟨x.n1, x.n0, x.n2, fun i j k => x.val j i k⟩

/-- mx.sym.swapaxes(data, dim1=1, dim2=2). -/
def swapaxes12 (x : Tensor3) : Tensor3 :=
  ⟨x.n0, x.n2, x.n1, fun i j k => x.val i k j⟩

/-- mx.sym.transpose(data, axes=(1, 2, 0)): new axis i is old axis (1,2,0)[i]. -/
def transpose120 (x : Tensor3) : Tensor3 :=
  ⟨x.n1, x.n2, x.n0, fun i j k => x.val k i j⟩

/-- mx.sym.SequenceMask on time-major data (time, batch, hidden) with
use_sequence_length=True and value=0: positions at or beyond the valid
length of the batch element are zeroed. -/
def sequenceMask (x : Tensor3) (len : ℕ → ℕ) : Tensor3 :=
  ⟨x.n0, x.n1, x.n2, fun t b h => if t < len b then x.val t b h else 0⟩

/-- mx.sym.slice_axis(axis=2, begin=b, end=e). -/
def sliceAxis2 (x : Tensor3) (b e : ℕ) : Tensor3 :=
  ⟨x.n0, x.n1, e - b, fun i j t => x.val i j (b + t)⟩

/-- First half of mx.sym.split(num_outputs=2, axis=1). -/
def splitLo (x : Tensor3) : Tensor3 :=
  ⟨x.n0, x.n1 / 2, x.n2, x.val⟩

/-- Second half of mx.sym.split(num_outputs=2, axis=1). -/
def splitHi (x : Tensor3) : Tensor3 :=
  ⟨x.n0, x.n1 / 2, x.n2, fun i j k => x.val i (x.n1 / 2 + j) k⟩

/-- mx.sym.broadcast_mul on same-shaped tensors. -/
def broadcastMul (x y : Tensor3) : Tensor3 :=
  ⟨x.n0, x.n1, x.n2, fun i j k => x.val i j k * y.val i j k⟩

/-- mx.sym.Activation: elementwise application of the activation function. -/
def elemMap (f : ℚ → ℚ) (x : Tensor3) : Tensor3 :=
  ⟨x.n0, x.n1, x.n2, fun i j k => f (x.val i j k)⟩

/-- The W axis of an NCW tensor extended by p zeros on both sides. -/
def paddedAt (x : Tensor3) (p n c w : ℕ) : ℚ :=
  if w < p then 0 else if w - p < x.n2 then x.val n c (w - p) else 0

/-- mx.sym.Convolution with layout NCW, 1-dimensional kernel of width k,
symmetric zero padding p, f output filters, and stride 1.  Input shape
(N, C, W); output shape (N, f, W + 2p - k + 1). -/
def convolution (x : Tensor3) (weight : ℕ → ℕ → ℕ → ℚ) (bias : ℕ → ℚ)
    (p k f : ℕ) : Tensor3 :=
  ⟨x.n0, f, x.n2 + 2 * p + 1 - k,
   fun n fi t => bias fi +
     ∑ c ∈ Finset.range x.n1, ∑ j ∈ Finset.range k,
       weight fi c j * paddedAt x p n c (t + j)⟩

/-- Modelled from the spec: the constant GLU of the constants module
(not under src), the default activation kind "gated linear unit". -/
def GLU : String := "glu"

/-- Modelled from the spec: the constant CNN_ACTIVATION_TYPES of the
constants module (not under src).  The spec describes a fixed enumerated
set of supported activation kinds containing the gated linear unit and the
elementwise activations supported by MXNet. -/
def CNN_ACTIVATION_TYPES : List String :=
  ["glu", "relu", "sigmoid", "softrelu", "tanh"]

/-- ConvolutionConfig of src/sockeye/convolution.py.  The fields stored by
its constructor. -/
structure ConvolutionConfig where
  kernel_width : ℕ
  num_hidden : ℕ
  act_type : String

/-- ConvolutionConfig constructor: utils.check_condition raises
(Except.error) when the activation kind is not in CNN_ACTIVATION_TYPES,
otherwise the fields are stored. -/
def ConvolutionConfig.make (kernel_width num_hidden : ℕ) (act_type : String) :
    Except String ConvolutionConfig :=
  if act_type ∈ CNN_ACTIVATION_TYPES then
    Except.ok ⟨kernel_width, num_hidden, act_type⟩
  else
    Except.error ("Unknown activation " ++ act_type ++ ".")

/-- ConvolutionBlock of src/sockeye/convolution.py: a configuration, a pad
type, and the weight and bias variables created by the constructor. -/
structure ConvolutionBlock where
  config : ConvolutionConfig
  pad_type : String
  conv_weight : ℕ → ℕ → ℕ → ℚ
  conv_bias : ℕ → ℚ

/-- The ConvolutionBlock constructor: it stores its arguments and performs
no validation of any kind. -/
def ConvolutionBlock.init (config : ConvolutionConfig) (pad_type : String)
    (conv_weight : ℕ → ℕ → ℕ → ℚ) (conv_bias : ℕ → ℚ) : ConvolutionBlock :=
  ⟨config, pad_type, conv_weight, conv_bias⟩

/-- The padding decision block at the top of ConvolutionBlock.__call__
(lines 75-87): with skip_padding no padding is computed; otherwise pad type
"left" gives kernel_width - 1, pad type "centered" demands an odd kernel
width (raising otherwise) and gives (kernel_width - 1) / 2, and any other
pad type raises ValueError. -/
def ConvolutionBlock.paddingOf (b : ConvolutionBlock) (skip_padding : Bool) :
    Except String (Option ℕ) :=
  if skip_padding then Except.ok none
  else if b.pad_type = "left" then
    Except.ok (some (b.config.kernel_width - 1))
  else if b.pad_type = "centered" then
    if b.config.kernel_width % 2 = 1 then
      Except.ok (some ((b.config.kernel_width - 1) / 2))
    else
      Except.error ("Only odd kernel widths supported, but got "
        ++ toString b.config.kernel_width)
  else
    Except.error ("Unknown pad type " ++ b.pad_type)

/-- Lines 89-92 of ConvolutionBlock.__call__: number of convolution filters,
doubled for the gated linear unit. -/
def numFilters (b : ConvolutionBlock) : ℕ :=
  if b.config.act_type = "glu" then 2 * b.config.num_hidden
  else b.config.num_hidden

/-- Lines 94-103 of ConvolutionBlock.__call__: swap to time-major, apply
SequenceMask, transpose to layout NCW.  This is the tensor handed to the
convolution. -/
def convInput (data : Tensor3) (data_length : ℕ → ℕ) : Tensor3 :=
  transpose120 (sequenceMask (swapaxes01 data) data_length)

/-- Lines 104-114 of ConvolutionBlock.__call__: the convolution (a padding
of None means the MXNet default pad of 0) followed by the slice of the
extra right padding, which happens exactly when padding was not skipped and
the pad type is "left". -/
def ConvolutionBlock.convResult (b : ConvolutionBlock) (data : Tensor3)
    (data_length : ℕ → ℕ) (seq_len : ℕ) (skip_padding : Bool)
    (padding : Option ℕ) : Tensor3 :=
  if skip_padding = false ∧ b.pad_type = "left" then
    sliceAxis2 (convolution (convInput data data_length) b.conv_weight
      b.conv_bias (padding.getD 0) b.config.kernel_width (numFilters b)) 0 seq_len
  else
    convolution (convInput data data_length) b.conv_weight b.conv_bias
      (padding.getD 0) b.config.kernel_width (numFilters b)

/-- Lines 94-130 of ConvolutionBlock.__call__: the tensor computation of the
block given the already-decided padding: masking, convolution, optional
slicing, activation (gated linear unit or a plain elementwise activation),
and the final axis swap back to (batch, time, channels). -/
def ConvolutionBlock.forward (b : ConvolutionBlock) (actF : String → ℚ → ℚ)
    (data : Tensor3) (data_length : ℕ → ℕ) (seq_len : ℕ)
    (skip_padding : Bool) (padding : Option ℕ) : Tensor3 :=
  let dc := b.convResult data data_length seq_len skip_padding padding
  let block_output :=
    if b.config.act_type = "glu" then
      broadcastMul (splitLo dc) (elemMap (actF "sigmoid") (splitHi dc))
    else
      elemMap (actF b.config.act_type) dc
  swapaxes12 block_output

/-- ConvolutionBlock.__call__: decide the padding (possibly raising), then
run the tensor computation. -/
def ConvolutionBlock.call (b : ConvolutionBlock) (actF : String → ℚ → ℚ)
    (data : Tensor3) (data_length : ℕ → ℕ) (seq_len : ℕ)
    (skip_padding : Bool) : Except String Tensor3 :=
  match b.paddingOf skip_padding with
  | Except.error e => Except.error e
  | Except.ok padding =>
      Except.ok (b.forward actF data data_length seq_len skip_padding padding)

end Sockeye

namespace Sockeye

/-! Concrete fixtures used by witnesses and counterexamples. -/

/-- All-ones weight tensor. -/
def w1 : ℕ → ℕ → ℕ → ℚ := fun _ _ _ => 1

/-- All-zero bias tensor. -/
def bias0 : ℕ → ℚ := fun _ => 0

/-- A substrate whose every activation is the identity. -/
def actId : String → ℚ → ℚ := fun _ q => q

/-- Valid length 1 for every batch element. -/
def dl1 : ℕ → ℕ := fun _ => 1

/-- Batch 1, time 2, hidden 1; the value 5 sits at the time position beyond
the valid length dl1. -/
def dataT : Tensor3 := ⟨1, 2, 1, fun _ t _ => if t = 1 then 5 else 0⟩

/-- C7: on a pad type that is neither "left" nor "centered",
ConvolutionBlock.__call__ with skip_padding=False raises ValueError; the
result is this error for every data tensor, length vector, maximum length
and activation substrate, so the failure precedes any tensor computation. -/
theorem unknown_pad_type_error (b : ConvolutionBlock) (actF : String → ℚ → ℚ)
    (data : Tensor3) (dl : ℕ → ℕ) (L : ℕ)
    (h1 : b.pad_type ≠ "left") (h2 : b.pad_type ≠ "centered") :
    b.call actF data dl L false
      = Except.error ("Unknown pad type " ++ b.pad_type) := by
  unfold ConvolutionBlock.call ConvolutionBlock.paddingOf
  simp [h1, h2]

theorem unknown_pad_type_error_witness :
    (ConvolutionBlock.init ⟨3, 2, "glu"⟩ "weird" w1 bias0).call actId dataT dl1 2 false
      = Except.error "Unknown pad type weird" :=
  unknown_pad_type_error (ConvolutionBlock.init ⟨3, 2, "glu"⟩ "weird" w1 bias0)
    actId dataT dl1 2 (by decide) (by decide)

/-- C8: constructing a ConvolutionConfig with an activation kind outside the
supported set raises (here at the concrete kind "relu_invalid"), and
construction with any supported kind succeeds, storing the kind and the
other fields unchanged. -/
theorem config_activation_validation (k nh : ℕ) :
    ConvolutionConfig.make k nh "relu_invalid"
      = Except.error "Unknown activation relu_invalid." ∧
    (∀ act, act ∈ CNN_ACTIVATION_TYPES →
      ConvolutionConfig.make k nh act = Except.ok ⟨k, nh, act⟩) := by
  constructor
  · unfold ConvolutionConfig.make
    rw [if_neg (by decide)]
    rfl
  · intro act hact
    unfold ConvolutionConfig.make
    rw [if_pos hact]

theorem config_activation_validation_witness :
    ConvolutionConfig.make 3 2 "relu_invalid"
      = Except.error "Unknown activation relu_invalid." ∧
    ConvolutionConfig.make 3 2 "glu" = Except.ok ⟨3, 2, "glu"⟩ :=
  ⟨(config_activation_validation 3 2).1,
   (config_activation_validation 3 2).2 "glu" (by decide)⟩

/-- C3 counterexample: the block constructor performs no validation, so the
even kernel width 4 combined with the "centered" pad mode is NOT detected at
construction time: construction succeeds and stores the fields, and the
invalid-configuration error only surfaces on the first forward call. -/
theorem centered_even_construction_counterexample :
    (ConvolutionBlock.init ⟨4, 3, "glu"⟩ "centered" w1 bias0).config.kernel_width = 4 ∧
    (ConvolutionBlock.init ⟨4, 3, "glu"⟩ "centered" w1 bias0).pad_type = "centered" ∧
    (ConvolutionBlock.init ⟨4, 3, "glu"⟩ "centered" w1 bias0).call actId dataT dl1 2 false
      = Except.error "Only odd kernel widths supported, but got 4" :=
  ⟨rfl, rfl, rfl⟩

/-- C3 amended: an even kernel width with the "centered" pad mode raises the
invalid-configuration error at call time, on any forward call with
skip_padding=False, not at construction time. -/
theorem centered_even_kernel_call_error (b : ConvolutionBlock)
    (actF : String → ℚ → ℚ) (data : Tensor3) (dl : ℕ → ℕ) (L : ℕ)
    (hpad : b.pad_type = "centered") (heven : b.config.kernel_width % 2 = 0) :
    b.call actF data dl L false
      = Except.error ("Only odd kernel widths supported, but got "
          ++ toString b.config.kernel_width) := by
  unfold ConvolutionBlock.call ConvolutionBlock.paddingOf
  rw [hpad]
  have hk : ¬ (b.config.kernel_width % 2 = 1) := by omega
  simp [hk]

theorem centered_even_kernel_call_error_witness :
    (ConvolutionBlock.init ⟨4, 3, "glu"⟩ "centered" w1 bias0).call actId dataT dl1 2 false
      = Except.error "Only odd kernel widths supported, but got 4" :=
  centered_even_kernel_call_error (ConvolutionBlock.init ⟨4, 3, "glu"⟩ "centered" w1 bias0)
    actId dataT dl1 2 rfl (by decide)

end Sockeye

namespace Sockeye

/-- Like dataT but with value 9 instead of 5 at the masked time position. -/
def dataU : Tensor3 := ⟨1, 2, 1, fun _ t _ => if t = 1 then 9 else 0⟩

/-- C2 counterexample: with skip_padding=True masking is NOT bypassed.
Kernel width 1, identity activation, weight 1 and bias 0 make the block the
identity on unmasked data, yet at the time position beyond the valid length
(input value 5) the returned tensor holds 0, i.e. SequenceMask was applied
even though skip_padding=True. -/
theorem skip_padding_masking_counterexample :
    (∃ out, (ConvolutionBlock.init ⟨1, 1, "relu"⟩ "left" w1 bias0).call actId dataT dl1 2 true
        = Except.ok out ∧ out.val 0 1 0 = 0) ∧ (0 : ℚ) ≠ 5 := by
  refine ⟨⟨_, rfl, ?_⟩, by decide⟩
  show ((ConvolutionBlock.init ⟨1, 1, "relu"⟩ "left" w1 bias0).forward
      actId dataT dl1 2 true none).val 0 1 0 = 0
  simp [ConvolutionBlock.forward, ConvolutionBlock.convResult, numFilters,
        convolution, convInput, transpose120, sequenceMask, swapaxes01,
        swapaxes12, elemMap, broadcastMul, splitLo, splitHi, paddedAt,
        sliceAxis2, ConvolutionBlock.init, w1, bias0, actId, dataT, dl1,
        Finset.sum_range_succ]

/-- C2 amended: sequence masking is applied before the convolution for every
value of skip_padding (the flag bypasses only padding and slicing).  The
tensor handed to the convolution is zero at every position at or beyond the
valid length of its batch element, and the call result depends only on the
data values at positions inside the valid lengths, for skip_padding true
and false alike. -/
theorem masking_always_applied (b : ConvolutionBlock) (actF : String → ℚ → ℚ)
    (data data' : Tensor3) (dl : ℕ → ℕ) (L : ℕ) (skip : Bool)
    (h0 : data.n0 = data'.n0) (h1 : data.n1 = data'.n1) (h2 : data.n2 = data'.n2)
    (hagree : ∀ i t j, t < dl i → data.val i t j = data'.val i t j) :
    (∀ i j t, dl i ≤ t → (convInput data dl).val i j t = 0) ∧
    b.call actF data dl L skip = b.call actF data' dl L skip := by
  have hci : convInput data dl = convInput data' dl := by
    apply Tensor3.eqOf
    · simp [convInput, transpose120, sequenceMask, swapaxes01, h0]
    · simp [convInput, transpose120, sequenceMask, swapaxes01, h2]
    · simp [convInput, transpose120, sequenceMask, swapaxes01, h1]
    · intro i j k
      simp only [convInput, transpose120, sequenceMask, swapaxes01]
      by_cases hk : k < dl i
      · simp only [hk, if_true, if_pos hk]
        exact hagree i k j hk
      · simp [hk]
  constructor
  · intro i j t ht
    simp only [convInput, transpose120, sequenceMask, swapaxes01]
    rw [if_neg (by omega)]
  · unfold ConvolutionBlock.call
    have hfw : ∀ padding, b.forward actF data dl L skip padding
        = b.forward actF data' dl L skip padding := by
      intro padding
      unfold ConvolutionBlock.forward ConvolutionBlock.convResult
      rw [hci]
    cases hp : b.paddingOf skip with
    | error e => rfl
    | ok padding => exact congrArg Except.ok (hfw padding)

theorem masking_always_applied_witness :
    (∀ i j t, dl1 i ≤ t → (convInput dataT dl1).val i j t = 0) ∧
    (ConvolutionBlock.init ⟨1, 1, "relu"⟩ "left" w1 bias0).call actId dataT dl1 2 true
      = (ConvolutionBlock.init ⟨1, 1, "relu"⟩ "left" w1 bias0).call actId dataU dl1 2 true :=
  masking_always_applied (ConvolutionBlock.init ⟨1, 1, "relu"⟩ "left" w1 bias0)
    actId dataT dataU dl1 2 true rfl rfl rfl
    (by
      intro i t j ht
      have ht0 : t = 0 := by
        have : dl1 i = 1 := rfl
        omega
      subst ht0
      rfl)

end Sockeye

namespace Sockeye

/-- The channel count of the (possibly sliced) convolution output is the
filter count: slicing acts on axis 2 only. -/
theorem convResult_n1 (b : ConvolutionBlock) (data : Tensor3) (dl : ℕ → ℕ)
    (L : ℕ) (skip : Bool) (padding : Option ℕ) :
    (b.convResult data dl L skip padding).n1 = numFilters b := by
  unfold ConvolutionBlock.convResult
  split <;> rfl

/-- The batch dimension of the (possibly sliced) convolution output is the
batch dimension of the input data. -/
theorem convResult_n0 (b : ConvolutionBlock) (data : Tensor3) (dl : ℕ → ℕ)
    (L : ℕ) (skip : Bool) (padding : Option ℕ) :
    (b.convResult data dl L skip padding).n0 = data.n0 := by
  unfold ConvolutionBlock.convResult
  split <;> rfl

/-- Shape of the block output in terms of the convolution result: the final
axis swap puts time at axis 1 and channels at axis 2, and the gated linear
unit halves the channel count. -/
theorem forward_shape (b : ConvolutionBlock) (actF : String → ℚ → ℚ)
    (data : Tensor3) (dl : ℕ → ℕ) (L : ℕ) (skip : Bool) (padding : Option ℕ) :
    (b.forward actF data dl L skip padding).n0
      = (b.convResult data dl L skip padding).n0 ∧
    (b.forward actF data dl L skip padding).n1
      = (b.convResult data dl L skip padding).n2 ∧
    (b.forward actF data dl L skip padding).n2
      = (if b.config.act_type = "glu"
          then (b.convResult data dl L skip padding).n1 / 2
          else (b.convResult data dl L skip padding).n1) := by
  by_cases hg : b.config.act_type = "glu" <;>
    simp [ConvolutionBlock.forward, hg, swapaxes12, broadcastMul, splitLo,
      splitHi, elemMap]

/-- C1: with the gated-linear-unit activation the convolution is run with
2 * num_hidden output filters, the call succeeds whenever the padding
decision does, the returned tensor has exactly num_hidden channels, and
every returned entry is gate_a times sigmoid of gate_b, where gate_a and
gate_b are the lower and upper channel halves of the convolution output. -/
theorem glu_gating (b : ConvolutionBlock) (actF : String → ℚ → ℚ)
    (data : Tensor3) (dl : ℕ → ℕ) (L : ℕ) (skip : Bool) (padding : Option ℕ)
    (hglu : b.config.act_type = "glu")
    (hp : b.paddingOf skip = Except.ok padding) :
    numFilters b = 2 * b.config.num_hidden ∧
    (b.convResult data dl L skip padding).n1 = 2 * b.config.num_hidden ∧
    b.call actF data dl L skip
      = Except.ok (b.forward actF data dl L skip padding) ∧
    (b.forward actF data dl L skip padding).n2 = b.config.num_hidden ∧
    (∀ i t j, (b.forward actF data dl L skip padding).val i t j
      = (b.convResult data dl L skip padding).val i j t
        * actF "sigmoid"
            ((b.convResult data dl L skip padding).val i
              (b.config.num_hidden + j) t)) := by
  have hnf : numFilters b = 2 * b.config.num_hidden := by
    unfold numFilters
    rw [if_pos hglu]
  have hn1 : (b.convResult data dl L skip padding).n1
      = 2 * b.config.num_hidden := by
    rw [convResult_n1, hnf]
  have hhalf : (b.convResult data dl L skip padding).n1 / 2
      = b.config.num_hidden := by
    rw [hn1]
    omega
  refine ⟨hnf, hn1, ?_, ?_, ?_⟩
  · unfold ConvolutionBlock.call
    rw [hp]
  · rcases forward_shape b actF data dl L skip padding with ⟨-, -, h2⟩
    rw [h2, if_pos hglu, hhalf]
  · intro i t j
    simp only [ConvolutionBlock.forward, if_pos hglu, swapaxes12,
      broadcastMul, splitLo, splitHi, elemMap]
    rw [hhalf]

theorem glu_gating_witness :
    numFilters (ConvolutionBlock.init ⟨3, 2, "glu"⟩ "left" w1 bias0) = 2 * 2 ∧
    ((ConvolutionBlock.init ⟨3, 2, "glu"⟩ "left" w1 bias0).convResult dataT dl1 2 false
        (some 2)).n1 = 2 * 2 ∧
    (ConvolutionBlock.init ⟨3, 2, "glu"⟩ "left" w1 bias0).call actId dataT dl1 2 false
      = Except.ok ((ConvolutionBlock.init ⟨3, 2, "glu"⟩ "left" w1 bias0).forward
          actId dataT dl1 2 false (some 2)) ∧
    ((ConvolutionBlock.init ⟨3, 2, "glu"⟩ "left" w1 bias0).forward actId dataT dl1 2 false
        (some 2)).n2 = 2 ∧
    (∀ i t j,
      ((ConvolutionBlock.init ⟨3, 2, "glu"⟩ "left" w1 bias0).forward actId dataT dl1 2 false
          (some 2)).val i t j
        = ((ConvolutionBlock.init ⟨3, 2, "glu"⟩ "left" w1 bias0).convResult dataT dl1 2 false
            (some 2)).val i j t
          * actId "sigmoid"
              (((ConvolutionBlock.init ⟨3, 2, "glu"⟩ "left" w1 bias0).convResult dataT dl1 2
                  false (some 2)).val i (2 + j) t)) :=
  glu_gating (ConvolutionBlock.init ⟨3, 2, "glu"⟩ "left" w1 bias0) actId dataT
    dl1 2 false (some 2) rfl rfl

end Sockeye

namespace Sockeye

/-- C6: whenever a call with skip_padding=False returns a tensor, that
tensor has shape (batch, seq_len, num_hidden): batch equals the batch of
the input, the time dimension equals seq_len, and the channel dimension is
the configured num_hidden, for every pad mode that lets the call succeed. -/
theorem output_shape (b : ConvolutionBlock) (actF : String → ℚ → ℚ)
    (data : Tensor3) (dl : ℕ → ℕ) (L : ℕ) (out : Tensor3)
    (hk : 1 ≤ b.config.kernel_width) (hlen : data.n1 = L)
    (hcall : b.call actF data dl L false = Except.ok out) :
    out.n0 = data.n0 ∧ out.n1 = L ∧ out.n2 = b.config.num_hidden := by
  cases hp : b.paddingOf false with
  | error e =>
      unfold ConvolutionBlock.call at hcall
      rw [hp] at hcall
      exact absurd hcall (by simp)
  | ok padding =>
      unfold ConvolutionBlock.call at hcall
      rw [hp] at hcall
      simp only [Except.ok.injEq] at hcall
      subst hcall
      have hn2 : (b.convResult data dl L false padding).n2 = L := by
        unfold ConvolutionBlock.paddingOf at hp
        simp only [Bool.false_eq_true, if_false] at hp
        split_ifs at hp with hleft hcent hodd
        · simp only [Except.ok.injEq, Option.some.injEq] at hp
          unfold ConvolutionBlock.convResult
          rw [if_pos ⟨rfl, hleft⟩]
          simp [sliceAxis2]
        · simp only [Except.ok.injEq, Option.some.injEq] at hp
          unfold ConvolutionBlock.convResult
          rw [if_neg (by simp [hleft])]
          show (convInput data dl).n2 + 2 * padding.getD 0 + 1
              - b.config.kernel_width = L
          have hw : (convInput data dl).n2 = L := by
            simpa [convInput, transpose120, sequenceMask, swapaxes01] using hlen
          rw [hw, ← hp]
          simp only [Option.getD_some]
          omega
      rcases forward_shape b actF data dl L false padding with ⟨hf0, hf1, hf2⟩
      refine ⟨?_, ?_, ?_⟩
      · rw [hf0, convResult_n0]
      · rw [hf1, hn2]
      · rw [hf2]
        by_cases hg : b.config.act_type = "glu"
        · rw [if_pos hg, convResult_n1]
          unfold numFilters
          rw [if_pos hg]
          omega
        · rw [if_neg hg, convResult_n1]
          unfold numFilters
          rw [if_neg hg]

theorem output_shape_witness :
    ((ConvolutionBlock.init ⟨3, 2, "glu"⟩ "left" w1 bias0).forward actId dataT
        dl1 2 false (some 2)).n0 = dataT.n0 ∧
    ((ConvolutionBlock.init ⟨3, 2, "glu"⟩ "left" w1 bias0).forward actId dataT
        dl1 2 false (some 2)).n1 = 2 ∧
    ((ConvolutionBlock.init ⟨3, 2, "glu"⟩ "left" w1 bias0).forward actId dataT
        dl1 2 false (some 2)).n2 = 2 :=
  output_shape (ConvolutionBlock.init ⟨3, 2, "glu"⟩ "left" w1 bias0) actId
    dataT dl1 2
    ((ConvolutionBlock.init ⟨3, 2, "glu"⟩ "left" w1 bias0).forward actId dataT
      dl1 2 false (some 2))
    (by decide) rfl rfl

/-- C5: with an odd kernel width and the "centered" pad mode (and
skip_padding=False) the padding decision is (kernel_width - 1) / 2, the
convolution result is used directly with no slicing step, its time length
already equals seq_len, and the call returns a tensor of time length
seq_len. -/
theorem centered_no_slice (b : ConvolutionBlock) (actF : String → ℚ → ℚ)
    (data : Tensor3) (dl : ℕ → ℕ) (L : ℕ)
    (hpad : b.pad_type = "centered") (hodd : b.config.kernel_width % 2 = 1)
    (hlen : data.n1 = L) :
    b.paddingOf false
      = Except.ok (some ((b.config.kernel_width - 1) / 2)) ∧
    b.convResult data dl L false (some ((b.config.kernel_width - 1) / 2))
      = convolution (convInput data dl) b.conv_weight b.conv_bias
          ((b.config.kernel_width - 1) / 2) b.config.kernel_width
          (numFilters b) ∧
    (convolution (convInput data dl) b.conv_weight b.conv_bias
        ((b.config.kernel_width - 1) / 2) b.config.kernel_width
        (numFilters b)).n2 = L ∧
    ∃ out, b.call actF data dl L false = Except.ok out ∧ out.n1 = L := by
  have hnl : ¬ b.pad_type = "left" := by
    rw [hpad]
    decide
  have hp : b.paddingOf false
      = Except.ok (some ((b.config.kernel_width - 1) / 2)) := by
    unfold ConvolutionBlock.paddingOf
    simp [hnl, hpad, hodd]
  have hcr : b.convResult data dl L false (some ((b.config.kernel_width - 1) / 2))
      = convolution (convInput data dl) b.conv_weight b.conv_bias
          ((b.config.kernel_width - 1) / 2) b.config.kernel_width
          (numFilters b) := by
    unfold ConvolutionBlock.convResult
    rw [if_neg (by simp [hnl])]
    rfl
  have hw : (convInput data dl).n2 = L := by
    simpa [convInput, transpose120, sequenceMask, swapaxes01] using hlen
  have hn2 : (convolution (convInput data dl) b.conv_weight b.conv_bias
      ((b.config.kernel_width - 1) / 2) b.config.kernel_width
      (numFilters b)).n2 = L := by
    show (convInput data dl).n2 + 2 * ((b.config.kernel_width - 1) / 2) + 1
        - b.config.kernel_width = L
    rw [hw]
    omega
  refine ⟨hp, hcr, hn2, ⟨b.forward actF data dl L false
    (some ((b.config.kernel_width - 1) / 2)), ?_, ?_⟩⟩
  · unfold ConvolutionBlock.call
    rw [hp]
  · rcases forward_shape b actF data dl L false
      (some ((b.config.kernel_width - 1) / 2)) with ⟨-, hf1, -⟩
    rw [hf1, hcr, hn2]

theorem centered_no_slice_witness :
    (ConvolutionBlock.init ⟨3, 2, "glu"⟩ "centered" w1 bias0).paddingOf false
      = Except.ok (some 1) ∧
    (ConvolutionBlock.init ⟨3, 2, "glu"⟩ "centered" w1 bias0).convResult dataT
        dl1 2 false (some 1)
      = convolution (convInput dataT dl1)
          (ConvolutionBlock.init ⟨3, 2, "glu"⟩ "centered" w1 bias0).conv_weight
          (ConvolutionBlock.init ⟨3, 2, "glu"⟩ "centered" w1 bias0).conv_bias
          1 3 (numFilters (ConvolutionBlock.init ⟨3, 2, "glu"⟩ "centered" w1 bias0)) ∧
    (convolution (convInput dataT dl1)
        (ConvolutionBlock.init ⟨3, 2, "glu"⟩ "centered" w1 bias0).conv_weight
        (ConvolutionBlock.init ⟨3, 2, "glu"⟩ "centered" w1 bias0).conv_bias
        1 3 (numFilters (ConvolutionBlock.init ⟨3, 2, "glu"⟩ "centered" w1 bias0))).n2
      = 2 ∧
    ∃ out, (ConvolutionBlock.init ⟨3, 2, "glu"⟩ "centered" w1 bias0).call actId
        dataT dl1 2 false = Except.ok out ∧ out.n1 = 2 :=
  centered_no_slice (ConvolutionBlock.init ⟨3, 2, "glu"⟩ "centered" w1 bias0)
    actId dataT dl1 2 rfl (by decide) rfl

/-- C10: with skip_padding=True the pad type is never validated: the call
succeeds for every block, whatever its pad_type string and kernel parity,
no padding or slicing is applied, and the returned time length is
seq_len - kernel_width + 1, which equals seq_len exactly when the kernel
width is 1. -/
theorem skip_padding_no_validation (b : ConvolutionBlock)
    (actF : String → ℚ → ℚ) (data : Tensor3) (dl : ℕ → ℕ) (L : ℕ)
    (hk1 : 1 ≤ b.config.kernel_width) (hkL : b.config.kernel_width ≤ L)
    (hlen : data.n1 = L) :
    ∃ out, b.call actF data dl L true = Except.ok out ∧
      out.n1 = L + 1 - b.config.kernel_width ∧
      (out.n1 = L ↔ b.config.kernel_width = 1) := by
  have hp : b.paddingOf true = Except.ok none := rfl
  refine ⟨b.forward actF data dl L true none, ?_, ?_, ?_⟩
  · unfold ConvolutionBlock.call
    rw [hp]
  · rcases forward_shape b actF data dl L true none with ⟨-, hf1, -⟩
    rw [hf1]
    unfold ConvolutionBlock.convResult
    rw [if_neg (by simp)]
    show (convInput data dl).n2 + 2 * 0 + 1
        - b.config.kernel_width = L + 1 - b.config.kernel_width
    have hw : (convInput data dl).n2 = L := by
      simpa [convInput, transpose120, sequenceMask, swapaxes01] using hlen
    rw [hw]
  · rcases forward_shape b actF data dl L true none with ⟨-, hf1, -⟩
    rw [hf1]
    unfold ConvolutionBlock.convResult
    rw [if_neg (by simp)]
    show (convInput data dl).n2 + 2 * 0 + 1 - b.config.kernel_width = L
        ↔ b.config.kernel_width = 1
    have hw : (convInput data dl).n2 = L := by
      simpa [convInput, transpose120, sequenceMask, swapaxes01] using hlen
    rw [hw]
    omega

theorem skip_padding_no_validation_witness :
    ∃ out, (ConvolutionBlock.init ⟨2, 3, "glu"⟩ "centered" w1 bias0).call actId
        dataT dl1 2 true = Except.ok out ∧
      out.n1 = 2 + 1 - 2 ∧ (out.n1 = 2 ↔ (2 : ℕ) = 1) :=
  skip_padding_no_validation (ConvolutionBlock.init ⟨2, 3, "glu"⟩ "centered" w1 bias0)
    actId dataT dl1 2 (by decide) (by decide) rfl

end Sockeye

namespace Sockeye

/-- With left padding kernel_width - 1, the convolution value at time s
reads the masked input only at times at most s: two inputs of equal shape
that agree at all times up to t give equal convolution values at every
time s up to t. -/
theorem conv_left_val_agree (w : ℕ → ℕ → ℕ → ℚ) (bias : ℕ → ℚ) (k F : ℕ)
    (data data' : Tensor3) (dl : ℕ → ℕ) (t : ℕ)
    (h1 : data.n1 = data'.n1) (h2 : data.n2 = data'.n2)
    (hagree : ∀ i s j, s ≤ t → data.val i s j = data'.val i s j)
    (n f s : ℕ) (hs : s ≤ t) :
    (convolution (convInput data dl) w bias (k - 1) k F).val n f s
      = (convolution (convInput data' dl) w bias (k - 1) k F).val n f s := by
  simp only [convolution, convInput, transpose120, sequenceMask, swapaxes01,
    paddedAt]
  congr 1
  rw [h2]
  apply Finset.sum_congr rfl
  intro c hc
  apply Finset.sum_congr rfl
  intro j hj
  have hjk : j < k := Finset.mem_range.mp hj
  congr 1
  by_cases hlt : s + j < k - 1
  · rw [if_pos hlt, if_pos hlt]
  · rw [if_neg hlt, if_neg hlt, h1]
    by_cases hin : s + j - (k - 1) < data'.n1
    · rw [if_pos hin, if_pos hin]
      by_cases hdl : s + j - (k - 1) < dl n
      · rw [if_pos hdl, if_pos hdl]
        exact hagree n (s + j - (k - 1)) c (by omega)
      · rw [if_neg hdl, if_neg hdl]
    · rw [if_neg hin, if_neg hin]

/-- C4: with the "left" pad mode and skip_padding=False the call pads by
kernel_width - 1, slices the convolution back to seq_len (the output time
length equals seq_len), and is strictly causal: if two inputs of equal
shape agree at all time positions up to t, the outputs agree at time t in
every batch element and channel. -/
theorem left_pad_causal (b : ConvolutionBlock) (actF : String → ℚ → ℚ)
    (data data' : Tensor3) (dl : ℕ → ℕ) (L t : ℕ)
    (hpad : b.pad_type = "left")
    (h1 : data.n1 = data'.n1) (h2 : data.n2 = data'.n2)
    (hagree : ∀ i s j, s ≤ t → data.val i s j = data'.val i s j) :
    ∃ out out', b.call actF data dl L false = Except.ok out ∧
      b.call actF data' dl L false = Except.ok out' ∧
      out.n1 = L ∧ out'.n1 = L ∧
      ∀ i j, out.val i t j = out'.val i t j := by
  have hp : b.paddingOf false
      = Except.ok (some (b.config.kernel_width - 1)) := by
    unfold ConvolutionBlock.paddingOf
    simp [hpad]
  have hcr : ∀ d : Tensor3,
      b.convResult d dl L false (some (b.config.kernel_width - 1))
        = sliceAxis2 (convolution (convInput d dl) b.conv_weight b.conv_bias
            (b.config.kernel_width - 1) b.config.kernel_width (numFilters b))
            0 L := by
    intro d
    unfold ConvolutionBlock.convResult
    rw [if_pos ⟨rfl, hpad⟩]
    rfl
  have hdc : ∀ n f s, s ≤ t →
      (b.convResult data dl L false (some (b.config.kernel_width - 1))).val n f s
        = (b.convResult data' dl L false (some (b.config.kernel_width - 1))).val n f s := by
    intro n f s hs
    rw [hcr data, hcr data']
    show (convolution (convInput data dl) b.conv_weight b.conv_bias
        (b.config.kernel_width - 1) b.config.kernel_width (numFilters b)).val
          n f (0 + s)
      = (convolution (convInput data' dl) b.conv_weight b.conv_bias
          (b.config.kernel_width - 1) b.config.kernel_width (numFilters b)).val
            n f (0 + s)
    exact conv_left_val_agree b.conv_weight b.conv_bias b.config.kernel_width
      (numFilters b) data data' dl t h1 h2 hagree n f (0 + s) (by omega)
  have hn1eq : (b.convResult data dl L false (some (b.config.kernel_width - 1))).n1
      = (b.convResult data' dl L false (some (b.config.kernel_width - 1))).n1 := by
    rw [convResult_n1, convResult_n1]
  refine ⟨b.forward actF data dl L false (some (b.config.kernel_width - 1)),
    b.forward actF data' dl L false (some (b.config.kernel_width - 1)),
    ?_, ?_, ?_, ?_, ?_⟩
  · unfold ConvolutionBlock.call
    rw [hp]
  · unfold ConvolutionBlock.call
    rw [hp]
  · rcases forward_shape b actF data dl L false
      (some (b.config.kernel_width - 1)) with ⟨-, hf1, -⟩
    rw [hf1, hcr data]
    simp [sliceAxis2]
  · rcases forward_shape b actF data' dl L false
      (some (b.config.kernel_width - 1)) with ⟨-, hf1, -⟩
    rw [hf1, hcr data']
    simp [sliceAxis2]
  · intro i j
    by_cases hg : b.config.act_type = "glu"
    · simp only [ConvolutionBlock.forward, if_pos hg, swapaxes12,
        broadcastMul, splitLo, splitHi, elemMap]
      rw [hn1eq, hdc i j t (le_refl t),
        hdc i ((b.convResult data' dl L false
          (some (b.config.kernel_width - 1))).n1 / 2 + j) t (le_refl t)]
    · simp only [ConvolutionBlock.forward, if_neg hg, swapaxes12, elemMap]
      rw [hdc i j t (le_refl t)]

theorem left_pad_causal_witness :
    ∃ out out',
      (ConvolutionBlock.init ⟨3, 2, "glu"⟩ "left" w1 bias0).call actId dataT
          dl1 2 false = Except.ok out ∧
      (ConvolutionBlock.init ⟨3, 2, "glu"⟩ "left" w1 bias0).call actId dataU
          dl1 2 false = Except.ok out' ∧
      out.n1 = 2 ∧ out'.n1 = 2 ∧
      ∀ i j, out.val i 0 j = out'.val i 0 j :=
  left_pad_causal (ConvolutionBlock.init ⟨3, 2, "glu"⟩ "left" w1 bias0) actId
    dataT dataU dl1 2 0 rfl rfl rfl
    (by
      intro i s j hs
      have hs0 : s = 0 := by omega
      subst hs0
      rfl)

end Sockeye

namespace Sockeye

/-- A two-dimensional tensor (batch, hidden) for the layer-normalization
test. -/
structure Tensor2 where
  n0 : ℕ
  n1 : ℕ
  val : ℕ → ℕ → ℚ

/-- The expected per-row mean of src/test/unit/test_layers.py:
np.mean(x_np, axis=1). -/
def npMean (x : Tensor2) (i : ℕ) : ℚ :=
  (∑ j ∈ Finset.range x.n1, x.val i j) / (x.n1 : ℚ)

/-- The expected per-row variance of src/test/unit/test_layers.py:
np.var(x_np, axis=1), the mean of the squared deviations from the row
mean. -/
def npVar (x : Tensor2) (i : ℕ) : ℚ :=
  (∑ j ∈ Finset.range x.n1, (x.val i j - npMean x i) ^ 2) / (x.n1 : ℚ)

/-- Modelled from the spec: sockeye.layers.LayerNormalization.moments
(the layers module is not under src).  The spec states that it computes the
per-example mean and variance across the hidden dimension with shapes
(batch, 1); the variance is modelled in the raw-moments form
E[X^2] - E[X]^2.  The pair is (mean, variance). -/
def LayerNormalization.moments (x : Tensor2) : Tensor2 × Tensor2 :=
  (⟨x.n0, 1, fun i _ => (∑ j ∈ Finset.range x.n1, x.val i j) / (x.n1 : ℚ)⟩,
   ⟨x.n0, 1, fun i _ =>
     (∑ j ∈ Finset.range x.n1, x.val i j ^ 2) / (x.n1 : ℚ)
       - ((∑ j ∈ Finset.range x.n1, x.val i j) / (x.n1 : ℚ)) ^ 2⟩)

/-- Modelled from the spec: sockeye.layers.LayerNormalization.normalize
(the layers module is not under src).  The spec states that it produces
(x - mean) / sqrt(var) scaled by the learned gain and shifted by the
learned bias; the square root of the numerical substrate is passed in as a
function. -/
def LayerNormalization.normalize (sqrtF : ℚ → ℚ) (gamma beta : ℕ → ℚ)
    (x : Tensor2) : Tensor2 :=
  ⟨x.n0, x.n1, fun i j =>
    gamma j * ((x.val i j - (LayerNormalization.moments x).1.val i 0)
        / sqrtF ((LayerNormalization.moments x).2.val i 0))
      + beta j⟩

/-- The raw-moments form of the variance agrees with the mean of squared
deviations whenever the hidden dimension is nonempty. -/
theorem moments_var_eq_npVar (x : Tensor2) (i : ℕ) (h : 0 < x.n1) :
    (∑ j ∈ Finset.range x.n1, x.val i j ^ 2) / (x.n1 : ℚ)
      - ((∑ j ∈ Finset.range x.n1, x.val i j) / (x.n1 : ℚ)) ^ 2
      = npVar x i := by
  have hn : (x.n1 : ℚ) ≠ 0 := Nat.cast_ne_zero.mpr (by omega)
  unfold npVar npMean
  have hexp : ∀ j ∈ Finset.range x.n1,
      (x.val i j - (∑ l ∈ Finset.range x.n1, x.val i l) / (x.n1 : ℚ)) ^ 2
        = x.val i j ^ 2
          - (2 * ((∑ l ∈ Finset.range x.n1, x.val i l) / (x.n1 : ℚ)))
              * x.val i j
          + ((∑ l ∈ Finset.range x.n1, x.val i l) / (x.n1 : ℚ)) ^ 2 :=
    fun j _ => by ring
  rw [Finset.sum_congr rfl hexp, Finset.sum_add_distrib,
    Finset.sum_sub_distrib, ← Finset.mul_sum, Finset.sum_const,
    Finset.card_range, nsmul_eq_mul]
  field_simp
  ring

/-- C9: the modelled layer normalization computes moments of shapes
(batch, 1) equal to the per-row mean and variance expected by the test, and
with gain one and bias zero its output is exactly
(x - row mean) / sqrt(row variance), hence within absolute tolerance
1e-6 of it. -/
theorem layer_normalization_identity (sqrtF : ℚ → ℚ) (x : Tensor2)
    (h : 0 < x.n1) :
    ((LayerNormalization.moments x).1.n0 = x.n0 ∧
     (LayerNormalization.moments x).1.n1 = 1 ∧
     (LayerNormalization.moments x).2.n0 = x.n0 ∧
     (LayerNormalization.moments x).2.n1 = 1) ∧
    (∀ i, (LayerNormalization.moments x).1.val i 0 = npMean x i) ∧
    (∀ i, (LayerNormalization.moments x).2.val i 0 = npVar x i) ∧
    (∀ i j,
      (LayerNormalization.normalize sqrtF (fun _ => 1) (fun _ => 0) x).val i j
        = (x.val i j - npMean x i) / sqrtF (npVar x i) ∧
      |(LayerNormalization.normalize sqrtF (fun _ => 1) (fun _ => 0) x).val i j
          - (x.val i j - npMean x i) / sqrtF (npVar x i)|
        ≤ 1 / 1000000) := by
  have hvar : ∀ i, (LayerNormalization.moments x).2.val i 0 = npVar x i :=
    fun i => moments_var_eq_npVar x i h
  have hmean : ∀ i, (LayerNormalization.moments x).1.val i 0 = npMean x i :=
    fun i => rfl
  have hnorm : ∀ i j,
      (LayerNormalization.normalize sqrtF (fun _ => 1) (fun _ => 0) x).val i j
        = (x.val i j - npMean x i) / sqrtF (npVar x i) := by
    intro i j
    show (1 : ℚ) * ((x.val i j - (LayerNormalization.moments x).1.val i 0)
        / sqrtF ((LayerNormalization.moments x).2.val i 0)) + 0
      = (x.val i j - npMean x i) / sqrtF (npVar x i)
    rw [hmean i, hvar i, one_mul, add_zero]
  refine ⟨⟨rfl, rfl, rfl, rfl⟩, hmean, hvar, fun i j => ⟨hnorm i j, ?_⟩⟩
  rw [hnorm i j, sub_self, abs_zero]
  norm_num

/-- A concrete 1-by-2 input for the layer-normalization witness. -/
def x2 : Tensor2 := ⟨1, 2, fun _ j => (j : ℚ)⟩

theorem layer_normalization_identity_witness :
    ((LayerNormalization.moments x2).1.n0 = x2.n0 ∧
     (LayerNormalization.moments x2).1.n1 = 1 ∧
     (LayerNormalization.moments x2).2.n0 = x2.n0 ∧
     (LayerNormalization.moments x2).2.n1 = 1) ∧
    (∀ i, (LayerNormalization.moments x2).1.val i 0 = npMean x2 i) ∧
    (∀ i, (LayerNormalization.moments x2).2.val i 0 = npVar x2 i) ∧
    (∀ i j,
      (LayerNormalization.normalize (fun q => q) (fun _ => 1) (fun _ => 0) x2).val i j
        = (x2.val i j - npMean x2 i) / (fun q => q) (npVar x2 i) ∧
      |(LayerNormalization.normalize (fun q => q) (fun _ => 1) (fun _ => 0) x2).val i j
          - (x2.val i j - npMean x2 i) / (fun q => q) (npVar x2 i)|
        ≤ 1 / 1000000) :=
  layer_normalization_identity (fun q => q) x2 (by decide)

end Sockeye
